import Mathlib

/-!
Shallow embedding of the `piet-raqote` rendering-context adapter
(`src/lib.rs`, `src/image.rs`, `src/convert.rs`).

Modelling conventions:
* Rust `f64`/`f32` coordinate values carry only exact arithmetic in the
  code paths verified here (they are stored, copied and compared, or cast
  with truncation), so they are embedded as `ℚ`.  The one genuine
  floating-point computation (`make_image`'s premultiply) is embedded as
  the exact rounding it provably equals; see `premultiply`.
* Rust `Vec`/`TinyVec` used as a stack (push/pop at the back, `last` reads
  the back) is embedded as a `List` whose HEAD is the top of the stack:
  `push` is `cons`, `pop` is `tail`, `last()` is `head?`.
* A Rust panic (`unwrap` on `None`, out-of-bounds slicing) is embedded as
  `Option.none`; fallible calls returning `Result` are embedded as
  `Except`.
* The raqote `DrawTarget` backend is an external collaborator.  It is
  embedded through the interface the spec requires of it: a pixel buffer,
  a clip stack with push semantics (`push_clip`), and draw commands that
  mutate the buffer, recorded here as an operation log.
* The `Cache` field (text-engine handle and glyph cache) is not touched by
  any verified operation and is omitted from the context record.
-/

/-- `kurbo::Affine`: a 2D affine transform stored as six coefficients. -/
structure Affine where
  ca : ℚ
  cb : ℚ
  cc : ℚ
  cd : ℚ
  ce : ℚ
  cf : ℚ
deriving DecidableEq

/-- `kurbo::Affine::IDENTITY` = `[1, 0, 0, 1, 0, 0]`. -/
def Affine.identity : Affine := ⟨1, 0, 0, 1, 0, 0⟩

/-- `raqote::PathOp`: one operation of a device path. -/
inductive PathOp
  | moveTo (x y : ℚ)
  | lineTo (x y : ℚ)
  | quadTo (cx cy x y : ℚ)
  | cubicTo (c1x c1y c2x c2y x y : ℚ)
  | close
deriving DecidableEq

/-- `raqote::Winding`. -/
inductive Winding
  | evenOdd
  | nonZero
deriving DecidableEq

/-- `raqote::Path`: device-path operations plus a winding rule. -/
structure RPath where
  ops : List PathOp
  winding : Winding
deriving DecidableEq

/-- `kurbo::PathEl`: one element yielded by a shape's flattened-element
iterator (`shape.path_elements(1e-3)` in `convert::to_path`); points are
coordinate pairs. -/
inductive PathEl
  | moveTo (x y : ℚ)
  | lineTo (x y : ℚ)
  | quadTo (x1 y1 x2 y2 : ℚ)
  | curveTo (x1 y1 x2 y2 x3 y3 : ℚ)
  | closePath
deriving DecidableEq

/-- `convert::to_path` (`src/convert.rs` lines 50-79): builds a raqote
path from the shape's element sequence via `PathBuilder`; the `f64 → f32`
casts on coordinates are embedded as the identity on `ℚ`.
`PathBuilder::finish` produces a path with winding `NonZero`. -/
def toPath (shape : List PathEl) : RPath :=
  { ops :=
      shape.map fun el =>
        match el with
        | .moveTo x y => PathOp.moveTo x y
        | .lineTo x y => PathOp.lineTo x y
        | .quadTo x1 y1 x2 y2 => PathOp.quadTo x1 y1 x2 y2
        | .curveTo x1 y1 x2 y2 x3 y3 => PathOp.cubicTo x1 y1 x2 y2 x3 y3
        | .closePath => PathOp.close,
    winding := Winding.nonZero }

/-- `ContextState` (`src/lib.rs` lines 393-396). -/
structure ContextState where
  transform : Affine
  clip : Option RPath
deriving DecidableEq

/-- `ContextState::default` (`src/lib.rs` lines 398-405). -/
def ContextState.default : ContextState := ⟨Affine.identity, none⟩

/-- `kurbo::Size`. -/
structure Size where
  width : ℚ
  height : ℚ
deriving DecidableEq

/-- `kurbo::Rect`: axis-aligned rectangle given by two corner points. -/
structure Rect where
  x0 : ℚ
  y0 : ℚ
  x1 : ℚ
  y1 : ℚ
deriving DecidableEq

/-- `kurbo::Rect::width` = `x1 - x0` (may be negative). -/
def Rect.width (r : Rect) : ℚ := r.x1 - r.x0

/-- `kurbo::Rect::height` = `y1 - y0` (may be negative). -/
def Rect.height (r : Rect) : ℚ := r.y1 - r.y0

/-- `kurbo::Rect::area` = `width * height`. -/
def Rect.area (r : Rect) : ℚ := r.width * r.height

/-- `kurbo::Rect::from_origin_size`. -/
def Rect.fromOriginSize (x y : ℚ) (s : Size) : Rect :=
  ⟨x, y, x + s.width, y + s.height⟩

/-- Rust `as usize` cast of a non-NaN `f64`: negative values saturate to
`0`, non-negative values truncate toward zero (the huge-value saturation
bound is irrelevant at the scales used here). -/
def f64ToUsize (q : ℚ) : Nat := if q ≤ 0 then 0 else (⌊q⌋).toNat

/-- Rust `as i32` cast of a non-NaN `f64`: truncation toward zero. -/
def f64ToI32 (q : ℚ) : Int := if q < 0 then ⌈q⌉ else ⌊q⌋

/-- `RaqoteImage` / `OwnedImage` (`src/image.rs` lines 8-25): an owned
packed-ARGB pixel buffer (each entry one `u32` pixel) with dimensions.
`raqote::Image` borrows the same three fields, so this record also serves
as the borrowed image view produced by `as_image`. -/
structure RaqoteImage where
  width : Int
  height : Int
  data : List Nat
deriving DecidableEq

/-- `Image::size for RaqoteImage` (`src/image.rs` lines 56-60): the
`i32 → f64` conversions are exact. -/
def RaqoteImage.size (img : RaqoteImage) : Size :=
  ⟨(img.width : ℚ), (img.height : ℚ)⟩

/-- `raqote::SolidSource`: a premultiplied solid color (four `u8`
channels). -/
structure SolidSource where
  r : Nat
  g : Nat
  b : Nat
  a : Nat
deriving DecidableEq

/-- `raqote::Color` as used in gradient stops. -/
structure RColor where
  a : Nat
  r : Nat
  g : Nat
  b : Nat
deriving DecidableEq

/-- `raqote::GradientStop` (`f32` position embedded as `ℚ`). -/
structure GradientStop where
  position : ℚ
  color : RColor
deriving DecidableEq

/-- `raqote::Gradient`. -/
structure Gradient where
  stops : List GradientStop
deriving DecidableEq

/-- `raqote::Spread` (`Repeat` is renamed because `repeat` is a Lean
keyword). -/
inductive Spread
  | pad
  | reflect
  | repeatTile
deriving DecidableEq

/-- `raqote::Transform`: a 2x3 `f32` matrix, embedded over `ℚ`. -/
structure RTransform where
  m11 : ℚ
  m12 : ℚ
  m21 : ℚ
  m22 : ℚ
  m31 : ℚ
  m32 : ℚ
deriving DecidableEq

/-- `BrushInner` (`src/lib.rs` lines 51-56). -/
inductive BrushInner
  | solid (s : SolidSource)
  | linearGradient (g : Gradient) (s : Spread) (t : RTransform)
  | radialGradient (g : Gradient) (s : Spread) (t : RTransform)
deriving DecidableEq

/-- `Brush` (`src/lib.rs` lines 48-49). -/
structure Brush where
  inner : BrushInner
deriving DecidableEq

/-- `raqote::Source` (the variants this adapter produces). -/
inductive Source
  | solid (s : SolidSource)
  | linearGradient (g : Gradient) (s : Spread) (t : RTransform)
  | radialGradient (g : Gradient) (s : Spread) (t : RTransform)
deriving DecidableEq

/-- `Brush::into_source` (`src/lib.rs` lines 59-69). -/
def Brush.intoSource (brush : Brush) : Source :=
  match brush.inner with
  | .solid s => Source.solid s
  | .linearGradient g s t => Source.linearGradient g s t
  | .radialGradient g s t => Source.radialGradient g s t

/-- `raqote::Mask`: a single-channel coverage mask. -/
structure Mask where
  width : Int
  height : Int
  data : List Nat
deriving DecidableEq

/-- One draw command submitted to the raqote backend.  The rasterizer's
pixel-level effect is external to this repository; commands are recorded
in submission order (the backend is deterministic, so equal command logs
on equal initial buffers give pixel-identical results). -/
inductive DrawOp
  | drawImageWithSizeAt (width height x y : ℚ) (img : RaqoteImage)
  | maskOp (src : Source) (x y : Int) (m : Mask)
deriving DecidableEq

/-- The raqote `DrawTarget` backend state, embedded through the interface
the spec requires of it: a mutable pixel buffer with dimensions, a clip
stack with push semantics, and an ordered log of draw commands. -/
structure DrawTarget where
  width : Int
  height : Int
  data : List Nat
  clipStack : List RPath
  ops : List DrawOp
deriving DecidableEq

/-- `raqote::DrawTarget::push_clip`: pushes one entry on the backend clip
stack. -/
def DrawTarget.pushClip (dt : DrawTarget) (p : RPath) : DrawTarget :=
  { dt with clipStack := p :: dt.clipStack }

/-- `DrawTarget::get_data` viewed as a `raqote::Image`
(`src/image.rs` lines 77-88). -/
def DrawTarget.asImage (dt : DrawTarget) : RaqoteImage :=
  ⟨dt.width, dt.height, dt.data⟩

/-- `DrawTarget::draw_image_with_size_at`: a draw command mutating the
buffer; recorded in the op log. -/
def DrawTarget.drawImageWithSizeAt (dt : DrawTarget) (w h x y : ℚ)
    (img : RaqoteImage) : DrawTarget :=
  { dt with ops := dt.ops ++ [DrawOp.drawImageWithSizeAt w h x y img] }

/-- `DrawTarget::mask`: a mask-composited draw command mutating the
buffer; recorded in the op log. -/
def DrawTarget.maskDraw (dt : DrawTarget) (src : Source) (x y : Int)
    (m : Mask) : DrawTarget :=
  { dt with ops := dt.ops ++ [DrawOp.maskOp src x y m] }

/-- The `piet::Error` variants this adapter produces. -/
inductive PietError
  | stackUnbalance
  | notSupported
deriving DecidableEq

/-- `piet::InterpolationMode`. -/
inductive InterpolationMode
  | nearestNeighbor
  | bilinear
deriving DecidableEq

/-- `RaqoteRenderContext` (`src/lib.rs` lines 32-36): the head of
`states` is the top of the stack.  The `cache` field (text-engine handle)
is untouched by every verified operation and omitted. -/
structure RaqoteRenderContext where
  dt : DrawTarget
  states : List ContextState
deriving DecidableEq

/-- `RaqoteRenderContext::new` (`src/lib.rs` lines 39-45): one default
state on the stack. -/
def RaqoteRenderContext.new (dt : DrawTarget) : RaqoteRenderContext :=
  ⟨dt, [ContextState.default]⟩

/-- `save` (`src/lib.rs` lines 253-262): reads the top entry
(`last().unwrap()` — `none` models the panic on an empty stack), pushes a
copy of its transform and clip, and returns `Ok(())`. -/
def RaqoteRenderContext.save (ctx : RaqoteRenderContext) :
    Option (Except PietError Unit × RaqoteRenderContext) :=
  match ctx.states with
  | [] => none
  | top :: rest =>
      some (Except.ok (),
        { ctx with states := ⟨top.transform, top.clip⟩ :: top :: rest })

/-- `restore` (`src/lib.rs` lines 264-272): fails with `StackUnbalance`
when exactly one entry remains, leaving the context untouched; otherwise
pops the top entry (`TinyVec::pop` on an empty stack is a silent no-op,
matching `List.tail`). -/
def RaqoteRenderContext.restore (ctx : RaqoteRenderContext) :
    Except PietError Unit × RaqoteRenderContext :=
  if ctx.states.length = 1 then
    (Except.error PietError.stackUnbalance, ctx)
  else
    (Except.ok (), { ctx with states := ctx.states.tail })

/-- `transform` (`src/lib.rs` lines 278-280): overwrites the top entry's
transform (`last_mut().unwrap()` — `none` models the panic on an empty
stack). -/
def RaqoteRenderContext.transform (ctx : RaqoteRenderContext)
    (t : Affine) : Option RaqoteRenderContext :=
  match ctx.states with
  | [] => none
  | top :: rest => some { ctx with states := { top with transform := t } :: rest }

/-- `current_transform` (`src/lib.rs` lines 282-284): reads the top
entry's transform from a shared borrow (no mutation is possible). -/
def RaqoteRenderContext.currentTransform (ctx : RaqoteRenderContext) :
    Option Affine :=
  ctx.states.head?.map (·.transform)

/-- `clip` (`src/lib.rs` lines 201-204): converts the shape and pushes it
on the backend clip stack.  The logical `states` stack is not touched. -/
def RaqoteRenderContext.clip (ctx : RaqoteRenderContext)
    (shape : List PathEl) : RaqoteRenderContext :=
  { ctx with dt := ctx.dt.pushClip (toPath shape) }

/-- `N` iterated `save()` calls (propagating the panic case). -/
def RaqoteRenderContext.saveN :
    Nat → RaqoteRenderContext → Option RaqoteRenderContext
  | 0, ctx => some ctx
  | n + 1, ctx =>
      (RaqoteRenderContext.save ctx).bind fun r =>
        RaqoteRenderContext.saveN n r.2

/-- `N` iterated `restore()` calls (each call is total: the error case
leaves the context unchanged). -/
def RaqoteRenderContext.restoreN :
    Nat → RaqoteRenderContext → RaqoteRenderContext
  | 0, ctx => ctx
  | n + 1, ctx =>
      RaqoteRenderContext.restoreN n (RaqoteRenderContext.restore ctx).2

/-- Sample backend target used by concrete witnesses. -/
def dt0 : DrawTarget := ⟨2, 2, [0, 0, 0, 0], [], []⟩

/-- Sample context with exactly one state entry. -/
def ctxOne : RaqoteRenderContext := RaqoteRenderContext.new dt0

/-- Sample context with two state entries. -/
def ctxTwo : RaqoteRenderContext :=
  ⟨dt0, [ContextState.default, ContextState.default]⟩

/-- Sample transform used by concrete witnesses. -/
def t0 : Affine := ⟨2, 0, 0, 2, 5, 7⟩

/-- Result of `transform ctxOne t0`, used by a concrete witness. -/
def ctxT : RaqoteRenderContext := ⟨dt0, [⟨t0, none⟩]⟩

/-- `slice::chunks_exact(4)` over a byte list: the full 4-byte chunks, the
remainder dropped. -/
def chunks4 : List Nat → List (Nat × Nat × Nat × Nat)
  | r :: g :: b :: a :: rest => (r, g, b, a) :: chunks4 rest
  | _ => []

/-- `slice::chunks_exact(3)` over a byte list: the full 3-byte chunks, the
remainder dropped. -/
def chunks3 : List Nat → List (Nat × Nat × Nat)
  | r :: g :: b :: rest => (r, g, b) :: chunks3 rest
  | _ => []

/-- `u32::from_le_bytes`. -/
def u32FromLeBytes (b0 b1 b2 b3 : Nat) : Nat :=
  b0 + 256 * b1 + 65536 * b2 + 16777216 * b3

/-- The `premultiply` closure of `make_image` (`src/lib.rs` lines
303-305): `(f32::from(source) * f32::from(a) / 255.0).round() as u8`,
embedded as the exact value the `f32` computation produces.  The product
`c·a ≤ 65025` is exact in `f32`; the quotient's relative rounding error is
below `2⁻²⁴` (absolute error below `2⁻¹⁶`), while the distance from
`c·a/255` to the nearest half-integer is at least `1/510` (an exact tie
would need `2·c·a = 255·(2k+1)`, even = odd), so `f32::round`
(half-away-from-zero) returns exactly `round(c·a/255)` =
`⌊(2·c·a + 255)/510⌋`, and the `as u8` cast never truncates since the
value is at most `255`. -/
def premultiply (c a : Nat) : Nat := (2 * c * a + 255) / 510

/-- The spec's premultiply formula, stated independently of the code:
`channel' = round(channel × alpha / 255)` with exact rational
arithmetic. -/
def premulRound (c a : Nat) : ℤ := round ((c * a : ℚ) / 255)

/-- `piet::ImageFormat`: the four recognized variants plus the
non-exhaustive remainder handled by the `_` arm. -/
inductive ImageFormat
  | rgbaSeparate
  | rgbaPremul
  | rgb
  | grayscale
  | other
deriving DecidableEq

/-- `make_image` (`src/lib.rs` lines 286-329); `&mut self` is never used,
so the receiver is dropped.  Input bytes are `Nat` values below 256.
There is no buffer-length validation: `chunks_exact` silently drops any
remainder, and a short buffer yields fewer pixels than
`width × height`. -/
def makeImage (width height : Nat) (buf : List Nat)
    (format : ImageFormat) : Except PietError RaqoteImage :=
  match format with
  | .rgbaPremul =>
      Except.ok ⟨(width : Int), (height : Int),
        (chunks4 buf).map fun p =>
          match p with
          | (r, g, b, a) => u32FromLeBytes r g b a⟩
  | .rgbaSeparate =>
      Except.ok ⟨(width : Int), (height : Int),
        (chunks4 buf).map fun p =>
          match p with
          | (r, g, b, a) =>
              u32FromLeBytes (premultiply r a) (premultiply g a)
                (premultiply b a) a⟩
  | .rgb =>
      Except.ok ⟨(width : Int), (height : Int),
        (chunks3 buf).map fun p =>
          match p with
          | (r, g, b) => u32FromLeBytes r g b 255⟩
  | .grayscale =>
      Except.ok ⟨(width : Int), (height : Int),
        buf.map fun v => u32FromLeBytes v v v 255⟩
  | .other => Except.error PietError.notSupported

/-- The image `make_image 2 1 [1, 2, 3, 4] RgbaPremul` actually returns:
a single pixel, although `width × height = 2`. -/
def imgTrunc : RaqoteImage := ⟨2, 1, [67305985]⟩

/-- Rust `as usize` on an `i32`: sign-extension then reinterpretation as
a 64-bit unsigned value. -/
def i32ToUsize (i : Int) : Nat :=
  if i < 0 then (2 ^ 64 + i).toNat else i.toNat

/-- Fueled worker for `chunksExact` (fuel bounds the recursion; it is
instantiated with the list length, which suffices for every positive
chunk size). -/
def chunksExactGo (k : Nat) : Nat → List Nat → List (List Nat)
  | 0, _ => []
  | fuel + 1, l =>
      if l.length < k then [] else l.take k :: chunksExactGo k fuel (l.drop k)

/-- `slice::chunks_exact(k)` for a run-time chunk size `k > 0`: the full
`k`-element chunks in order, the remainder dropped. -/
def chunksExact (k : Nat) (l : List Nat) : List (List Nat) :=
  chunksExactGo k l.length l

/-- Overwrite the elements of `l` starting at `start` with `src`
(Rust `dst_slice.copy_from_slice(src_slice)` after the bounds checks have
passed). -/
def setSlice (l : List Nat) (start : Nat) (src : List Nat) : List Nat :=
  l.take start ++ src ++ l.drop (start + src.length)

/-- The row-copy loop of `from_region` (`src/image.rs` lines 39-50).
`none` models a Rust panic: `&row[sx..sx + sw]` requires
`sx + sw ≤ row.len()`, and `&mut output[i*sw..(i+1)*sw]` requires
`(i+1)*sw ≤ output.len()` (the two slices then both have length `sw`, so
`copy_from_slice` cannot fail). -/
def copyRows (sx sw : Nat) : List (List Nat) → Nat → List Nat → Option (List Nat)
  | [], _, out => some out
  | row :: rest, i, out =>
      if sx + sw ≤ row.length ∧ (i + 1) * sw ≤ out.length then
        copyRows sx sw rest (i + 1)
          (setSlice out (i * sw) ((row.drop sx).take sw))
      else
        none

/-- `RaqoteImage::from_region` (`src/image.rs` lines 28-53), applied to an
image view (`RaqoteImage` and the borrowed `raqote::Image` share their
fields).  Rect origin and size are truncated to integer pixels with the
`as usize` cast; the output buffer is zero-filled at length
`area as usize`; rows are `chunks_exact(width)`, skipped by `src_y` and
limited to `src_height`.  `chunks_exact(0)` panics in Rust, modeled as
`none`; all other `none` results are slice-bounds panics inside the
copy loop. -/
def RaqoteImage.fromRegion (src : RaqoteImage) (srcRect : Rect) :
    Option RaqoteImage :=
  let sx := f64ToUsize srcRect.x0
  let sy := f64ToUsize srcRect.y0
  let sw := f64ToUsize srcRect.width
  let sh := f64ToUsize srcRect.height
  if i32ToUsize src.width = 0 then
    none
  else
    let rows := ((chunksExact (i32ToUsize src.width) src.data).drop sy).take sh
    (copyRows sx sw rows 0 (List.replicate (f64ToUsize srcRect.area) 0)).map
      fun out => ⟨(sw : Int), (sh : Int), out⟩

/-- `make_brush for Brush` (`src/lib.rs` lines 407-418): ignores the
context and the bounding-box closure and returns `Cow::Borrowed(self)`.
The `&mut` context is returned so that any mutation would be visible; the
closure argument never appears in the body. -/
def Brush.makeBrush (brush : Brush) (ctx : RaqoteRenderContext)
    (bbox : Unit → Rect) : Brush × RaqoteRenderContext :=
  (brush, ctx)

/-- `draw_image_area` (`src/lib.rs` lines 341-359): extracts the
`src_rect` sub-region (propagating the panic case of `from_region`), then
submits one scaled image draw of it at `dst_rect`; `interp` is accepted
but unused.  The `f64 → f32` casts on the destination coordinates are
embedded as the identity on `ℚ`. -/
def RaqoteRenderContext.drawImageArea (ctx : RaqoteRenderContext)
    (image : RaqoteImage) (srcRect : Rect) (dstRect : Rect)
    (interp : InterpolationMode) : Option RaqoteRenderContext :=
  (RaqoteImage.fromRegion image srcRect).map fun srcImage =>
    { ctx with
      dt := ctx.dt.drawImageWithSizeAt dstRect.width dstRect.height
        dstRect.x0 dstRect.y0 srcImage }

/-- `draw_image` (`src/lib.rs` lines 331-339): delegates to
`draw_image_area` with `bounds = Rect::from_origin_size((0,0),
image.size())`. -/
def RaqoteRenderContext.drawImage (ctx : RaqoteRenderContext)
    (image : RaqoteImage) (dstRect : Rect)
    (interp : InterpolationMode) : Option RaqoteRenderContext :=
  RaqoteRenderContext.drawImageArea ctx image
    (Rect.fromOriginSize 0 0 image.size) dstRect interp

/-- The full image bounds in the spec's words for the `draw_image`
refinement claim: `src_rect` with origin `(0,0)` and size equal to the
image size. -/
def specFullBounds (img : RaqoteImage) : Rect :=
  Rect.fromOriginSize 0 0 img.size

/-- `capture_image_area` (`src/lib.rs` lines 361-366): `from_region`
applied to the draw target's own buffer, wrapped in `Ok`. -/
def RaqoteRenderContext.captureImageArea (ctx : RaqoteRenderContext)
    (srcRect : Rect) : Option (Except PietError RaqoteImage) :=
  (RaqoteImage.fromRegion ctx.dt.asImage srcRect).map Except.ok

/-- `blurred_rect` (`src/lib.rs` lines 368-390).  The helpers
`piet::util::size_for_blurred_rect` and `piet::util::compute_blurred_rect`
are external to this repository (piet crate); their outputs — the
expanded size already cast `as i32` (`expWidth`, `expHeight`), the
coverage data written into the mask, and the blurred bounding rect — are
taken as parameters.  If either computed dimension is zero the function
returns before touching the target; otherwise it resolves the brush
against the blurred bounds and submits one mask-composited draw at the
original rect's origin. -/
def RaqoteRenderContext.blurredRect (ctx : RaqoteRenderContext)
    (rect : Rect) (blurRadius : ℚ) (expWidth expHeight : Int)
    (blurData : List Nat) (blurredBounds : Rect) (brush : Brush) :
    RaqoteRenderContext :=
  if expWidth = 0 ∨ expHeight = 0 then
    ctx
  else
    let m : Mask := ⟨expWidth, expHeight, blurData⟩
    let resolved := Brush.makeBrush brush ctx fun _ => blurredBounds
    let src := resolved.1.intoSource
    { resolved.2 with
      dt := resolved.2.dt.maskDraw src (f64ToI32 rect.x0) (f64ToI32 rect.y0) m }

/-- Sample shape (a triangle's element sequence) used by concrete
inputs. -/
def path0 : List PathEl :=
  [PathEl.moveTo 0 0, PathEl.lineTo 1 0, PathEl.lineTo 1 1, PathEl.closePath]

/-- Sample brush used by concrete witnesses. -/
def brush0 : Brush := ⟨BrushInner.solid ⟨1, 2, 3, 4⟩⟩

/-- Sample rect used by concrete witnesses. -/
def rect0 : Rect := ⟨0, 0, 1, 1⟩

/-- C2: `restore()` on a one-entry stack returns `StackUnbalance` and
leaves the whole context (hence the base state's transform and clip)
unchanged; on a deeper stack it pops exactly the top entry and
succeeds. -/
theorem restore_spec (ctx : RaqoteRenderContext) :
    (ctx.states.length = 1 →
      RaqoteRenderContext.restore ctx =
        (Except.error PietError.stackUnbalance, ctx)) ∧
    (1 < ctx.states.length →
      RaqoteRenderContext.restore ctx =
        (Except.ok (), { ctx with states := ctx.states.tail })) := by
  constructor
  · intro h
    simp [RaqoteRenderContext.restore, h]
  · intro h
    have hne : ctx.states.length ≠ 1 := by omega
    simp [RaqoteRenderContext.restore, hne]

/-- C2 witness: concrete one-entry and two-entry contexts. -/
theorem restore_spec_witness :
    RaqoteRenderContext.restore ctxOne =
      (Except.error PietError.stackUnbalance, ctxOne) ∧
    RaqoteRenderContext.restore ctxTwo =
      (Except.ok (), { ctxTwo with states := ctxTwo.states.tail }) :=
  ⟨(restore_spec ctxOne).1 (by decide), (restore_spec ctxTwo).2 (by decide)⟩

theorem saveN_cons (n : Nat) (dt : DrawTarget) (top : ContextState)
    (rest : List ContextState) :
    RaqoteRenderContext.saveN n ⟨dt, top :: rest⟩ =
      some ⟨dt, List.replicate n top ++ top :: rest⟩ := by
  induction n generalizing rest with
  | zero => rfl
  | succ n ih =>
      have hsave : RaqoteRenderContext.save ⟨dt, top :: rest⟩ =
          some (Except.ok (), ⟨dt, top :: top :: rest⟩) := rfl
      calc RaqoteRenderContext.saveN (n + 1) ⟨dt, top :: rest⟩
          = RaqoteRenderContext.saveN n ⟨dt, top :: top :: rest⟩ := by
            simp [RaqoteRenderContext.saveN, hsave]
        _ = some ⟨dt, List.replicate (n + 1) top ++ top :: rest⟩ := by
            rw [ih (top :: rest)]
            simp [List.replicate_succ', List.append_assoc]

theorem restoreN_replicate (n : Nat) (dt : DrawTarget)
    (top : ContextState) (rest : List ContextState) (hne : rest ≠ []) :
    RaqoteRenderContext.restoreN n ⟨dt, List.replicate n top ++ rest⟩ =
      ⟨dt, rest⟩ := by
  induction n with
  | zero => rfl
  | succ n ih =>
      have hrl : 0 < rest.length := List.length_pos.mpr hne
      have hl : ¬(List.replicate (n + 1) top ++ rest).length = 1 := by
        simp [List.length_append]
        omega
      have hres : RaqoteRenderContext.restore
          ⟨dt, List.replicate (n + 1) top ++ rest⟩ =
          (Except.ok (), ⟨dt, List.replicate n top ++ rest⟩) := by
        simp [RaqoteRenderContext.restore, hl, List.replicate_succ]
        exact fun _ => hne
      calc RaqoteRenderContext.restoreN (n + 1)
            ⟨dt, List.replicate (n + 1) top ++ rest⟩
          = RaqoteRenderContext.restoreN n ⟨dt, List.replicate n top ++ rest⟩ := by
            simp [RaqoteRenderContext.restoreN, hres]
        _ = ⟨dt, rest⟩ := ih

/-- C3: for every context with a non-empty state stack (the structural
invariant) and every `N ≥ 1`, `N` `save()` calls followed by `N`
`restore()` calls restore the context exactly, so in particular the top
entry's transform and clip equal their values beforehand. -/
theorem save_restore_roundtrip (ctx : RaqoteRenderContext) (n : Nat)
    (hne : ctx.states ≠ []) (hn : 1 ≤ n) :
    ∃ ctx', RaqoteRenderContext.saveN n ctx = some ctx' ∧
      RaqoteRenderContext.restoreN n ctx' = ctx ∧
      (RaqoteRenderContext.restoreN n ctx').states.head?.map
          (fun s => (s.transform, s.clip)) =
        ctx.states.head?.map (fun s => (s.transform, s.clip)) := by
  obtain ⟨top, rest, hs⟩ : ∃ top rest, ctx.states = top :: rest := by
    cases h : ctx.states with
    | nil => exact absurd h hne
    | cons a l => exact ⟨a, l, rfl⟩
  have hctx : ctx = ⟨ctx.dt, top :: rest⟩ := by
    cases ctx
    simp_all
  refine ⟨⟨ctx.dt, List.replicate n top ++ top :: rest⟩, ?_, ?_, ?_⟩
  · rw [hctx]
    exact saveN_cons n ctx.dt top rest
  · rw [hctx]
    exact restoreN_replicate n ctx.dt top (top :: rest) (by simp)
  · rw [hctx, restoreN_replicate n ctx.dt top (top :: rest) (by simp)]

/-- C3 witness: two saves then two restores on a concrete context. -/
theorem save_restore_roundtrip_witness :
    ∃ ctx', RaqoteRenderContext.saveN 2 ctxOne = some ctx' ∧
      RaqoteRenderContext.restoreN 2 ctx' = ctxOne ∧
      (RaqoteRenderContext.restoreN 2 ctx').states.head?.map
          (fun s => (s.transform, s.clip)) =
        ctxOne.states.head?.map (fun s => (s.transform, s.clip)) :=
  save_restore_roundtrip ctxOne 2 (by decide) (by decide)

/-- C4: when `transform(T)` succeeds (non-empty stack), a following
`current_transform()` returns exactly `T` — the prior transform is
replaced, never composed with — and nothing else changes: the rest of the
state stack and the draw target are untouched (`current_transform` itself
reads through a shared borrow and cannot mutate). -/
theorem transform_then_current (ctx ctx' : RaqoteRenderContext)
    (t : Affine)
    (h : RaqoteRenderContext.transform ctx t = some ctx') :
    RaqoteRenderContext.currentTransform ctx' = some t ∧
    ctx'.states.tail = ctx.states.tail ∧
    (ctx'.states.head?.map (·.clip)) = (ctx.states.head?.map (·.clip)) ∧
    ctx'.dt = ctx.dt := by
  cases hs : ctx.states with
  | nil => simp [RaqoteRenderContext.transform, hs] at h
  | cons top rest =>
      have hctx' : ctx' = { ctx with states := { top with transform := t } :: rest } := by
        simp [RaqoteRenderContext.transform, hs] at h
        exact h.symm
      subst hctx'
      refine ⟨rfl, ?_, ?_, rfl⟩
      · simp [hs]
      · simp [hs]

/-- C4 witness: a concrete transform replacement. -/
theorem transform_then_current_witness :
    RaqoteRenderContext.currentTransform ctxT = some t0 ∧
    ctxT.states.tail = ctxOne.states.tail ∧
    (ctxT.states.head?.map (·.clip)) = (ctxOne.states.head?.map (·.clip)) ∧
    ctxT.dt = ctxOne.dt :=
  transform_then_current ctxOne ctxT t0 (by decide)

/-- C1: the code violates the claimed save/clip/restore coupling.  After
`save(); clip(shape); restore()` on a fresh context, the logical stack is
back at its base depth `1`, but the backend clip stack still holds the
clip push (`restore` never issues a `pop_clip`), so its depth is `1`
where the claim requires `0`. -/
theorem clip_restore_depth_mismatch :
    ((RaqoteRenderContext.save ctxOne).map fun r =>
        (((RaqoteRenderContext.restore
            (RaqoteRenderContext.clip r.2 path0)).2).states.length,
         ((RaqoteRenderContext.restore
            (RaqoteRenderContext.clip r.2 path0)).2).dt.clipStack.length)) =
      some (1, 1) := by
  decide

/-- C5: the code violates the claim.  With `width = 2`, `height = 1`,
format `RgbaPremul` and a 4-byte buffer (8 bytes are needed), `make_image`
returns `Ok` — no size-mismatch error — and the produced image holds one
pixel, not `width × height = 2`. -/
theorem makeImage_short_buffer_silent :
    makeImage 2 1 [1, 2, 3, 4] ImageFormat.rgbaPremul = Except.ok imgTrunc ∧
    imgTrunc.data.length ≠ 2 * 1 := by
  constructor
  · rfl
  · decide

theorem premultiply_eq_round (c a : Nat) :
    (premultiply c a : ℤ) = premulRound c a := by
  have hx : (c * a : ℚ) / 255 + 1 / 2 =
      ((2 * c * a + 255 : ℕ) : ℚ) / ((510 : ℕ) : ℚ) := by
    push_cast
    ring
  have h0 : (0 : ℚ) ≤ ((2 * c * a + 255 : ℕ) : ℚ) / ((510 : ℕ) : ℚ) := by
    positivity
  rw [premulRound, round_eq, hx, ← Int.natCast_floor_eq_floor h0,
    Nat.floor_div_eq_div]
  simp [premultiply]

theorem premultiply_zero (c : Nat) : premultiply c 0 = 0 := by
  simp [premultiply]

/-- C6: `make_image` with the separate-alpha format maps every 4-byte
pixel `(r,g,b,a)` to the packed little-endian pixel whose color channels
are `round(channel × a / 255)` (exact rational rounding — the spec's
formula) and whose alpha byte is `a`; and for every pixel with `a = 0`
the packed 32-bit pixel is entirely zero. -/
theorem makeImage_rgbaSeparate_spec :
    (∀ w h : Nat, ∀ buf : List Nat,
      makeImage w h buf ImageFormat.rgbaSeparate =
        Except.ok ⟨(w : Int), (h : Int),
          (chunks4 buf).map fun p =>
            match p with
            | (r, g, b, a) =>
                u32FromLeBytes (premulRound r a).toNat (premulRound g a).toNat
                  (premulRound b a).toNat a⟩) ∧
    (∀ r g b : Nat,
      makeImage 1 1 [r, g, b, 0] ImageFormat.rgbaSeparate =
        Except.ok ⟨1, 1, [0]⟩) := by
  have htn : ∀ c a : Nat, (premulRound c a).toNat = premultiply c a := by
    intro c a
    rw [← premultiply_eq_round]
    exact Int.toNat_natCast _
  constructor
  · intro w h buf
    simp only [makeImage, htn]
  · intro r g b
    simp [makeImage, chunks4, premultiply_zero, u32FromLeBytes]

/-- C7: the code violates the claim.  For a 1×1 source image and
`src_rect = (0,0)-(2,1)` — not within bounds — `from_region` hits the
out-of-bounds row slice `&row[0..2]` on a 1-element row and panics
(`none`); its return type (`RaqoteImage`, no `Result`) offers no explicit
reported error at all. -/
theorem fromRegion_oob_panics :
    RaqoteImage.fromRegion ⟨1, 1, [5]⟩ ⟨0, 0, 2, 1⟩ = none := by
  have hx : f64ToUsize (Rect.x0 ⟨0, 0, 2, 1⟩) = 0 := by
    norm_num [Rect.x0, f64ToUsize]
  have hy : f64ToUsize (Rect.y0 ⟨0, 0, 2, 1⟩) = 0 := by
    norm_num [Rect.y0, f64ToUsize]
  have hw : f64ToUsize (Rect.width ⟨0, 0, 2, 1⟩) = 2 := by
    norm_num [Rect.width, f64ToUsize]
    decide
  have hh : f64ToUsize (Rect.height ⟨0, 0, 2, 1⟩) = 1 := by
    norm_num [Rect.height, f64ToUsize]
  have ha : f64ToUsize (Rect.area ⟨0, 0, 2, 1⟩) = 2 := by
    norm_num [Rect.area, Rect.width, Rect.height, f64ToUsize]
    decide
  simp only [RaqoteImage.fromRegion, hx, hy, hw, hh, ha]
  decide

/-- C8: `draw_image` is, for every image, destination rect, interpolation
mode and context, the same operation as `draw_image_area` with `src_rect`
equal to the full image bounds (origin `(0,0)`, size the image size), so
the two produce pixel-identical output. -/
theorem drawImage_eq_full_drawImageArea (ctx : RaqoteRenderContext)
    (img : RaqoteImage) (dst : Rect) (interp : InterpolationMode) :
    RaqoteRenderContext.drawImage ctx img dst interp =
      RaqoteRenderContext.drawImageArea ctx img (specFullBounds img) dst
        interp := rfl

/-- C9: when either externally computed expanded blur dimension is zero,
`blurred_rect` returns the context unchanged — in particular the raster
target's pixel buffer (and its whole state) is untouched. -/
theorem blurredRect_zero_noop (ctx : RaqoteRenderContext) (rect : Rect)
    (blurRadius : ℚ) (expWidth expHeight : Int) (blurData : List Nat)
    (blurredBounds : Rect) (brush : Brush)
    (hz : expWidth = 0 ∨ expHeight = 0) :
    RaqoteRenderContext.blurredRect ctx rect blurRadius expWidth expHeight
        blurData blurredBounds brush = ctx ∧
    (RaqoteRenderContext.blurredRect ctx rect blurRadius expWidth expHeight
        blurData blurredBounds brush).dt.data = ctx.dt.data := by
  have h : RaqoteRenderContext.blurredRect ctx rect blurRadius expWidth
      expHeight blurData blurredBounds brush = ctx := by
    unfold RaqoteRenderContext.blurredRect
    rw [if_pos hz]
  exact ⟨h, by rw [h]⟩

/-- C9 witness: a concrete zero-width call. -/
theorem blurredRect_zero_noop_witness :
    RaqoteRenderContext.blurredRect ctxOne rect0 1 0 3 [0] rect0 brush0 =
      ctxOne ∧
    (RaqoteRenderContext.blurredRect ctxOne rect0 1 0 3 [0] rect0
        brush0).dt.data = ctxOne.dt.data :=
  blurredRect_zero_noop ctxOne rect0 1 0 3 [0] rect0 brush0 (Or.inl rfl)

/-- C10: `make_brush` on an already-constructed `Brush` is the identity:
it returns the same brush (borrowed) and the context unmodified, and its
result does not depend on the bounding-box closure (the closure is never
invoked). -/
theorem makeBrush_identity (b : Brush) (ctx : RaqoteRenderContext)
    (f g : Unit → Rect) :
    Brush.makeBrush b ctx f = (b, ctx) ∧
    Brush.makeBrush b ctx f = Brush.makeBrush b ctx g :=
  ⟨rfl, rfl⟩
